import Mathlib

/-!
Shallow embedding of the public-domain scanner `wikidata_pd_scanner.py`.

The embedded core is the record normalizer and the jurisdiction classifier /
partitioner of `main` (lines 96-153 of the source), together with the helper
`extract_year_from_iso`.  Network access, configuration loading and CSV
serialization are outside the core: the pipeline here consumes a resolved
`current_year : Int` and a list of already-flattened raw records, and produces
the four in-memory record sets that the script writes to disk.

Python-level conventions modelled explicitly:
* `int(s)` on a string is `pyIntE` (strip whitespace, optional sign, decimal
  digits with single underscores between digits; ASCII forms only); it raises
  `ValueError` on anything else, modelled as `Except.error`.
* truthiness tests (`if not date_literal`, `if pubYear`, `if genres_raw`,
  `if regions`, `if genres`) are the explicit emptiness tests below.
* `s[:4]` keeps the leading run of at most four characters.
* `pandas.Series.str.contains` with the literal, metacharacter-free patterns
  used by the script is substring containment (`strContains`).
* `pandas.DataFrame.drop_duplicates(subset=["title", "author"])` keeps the
  first row for each (title, author) key (`dropDuplicatesByTitleAuthor`);
  missing labels compare equal, as pandas treats NaN keys as duplicates.
* `pandas.DataFrame([])` has no columns, so `df["regions"]` on it raises
  `KeyError`; `runMainE` models this (`runMain` is the same pipeline on the
  rows themselves, defined for any input).
-/

/-- Raw SPARQL binding row as consumed by the loop in `main`: each field is the
string value of the binding when present (`get_val` in the source). -/
structure RawRecord where
  workLabel : Option String
  authorLabel : Option String
  author : Option String
  death : Option String
  pubYear : Option String
  langLabel : Option String
  wp : Option String
  genres : Option String
deriving DecidableEq, Repr

/-- Characters removed by Python `int()` before parsing (leading and trailing
whitespace). -/
def pyStrip (l : List Char) : List Char :=
  ((l.dropWhile Char.isWhitespace).reverse.dropWhile Char.isWhitespace).reverse

/-- Digit body of a Python integer literal: nonempty, decimal digits, with a
single underscore allowed only between two digits. -/
def intBodyOk : List Char → Bool
  | [] => false
  | [c] => c.isDigit
  | c :: '_' :: rest => c.isDigit && intBodyOk rest
  | c :: rest => c.isDigit && intBodyOk rest

/-- Value of a list of decimal digit characters. -/
def digitsVal (l : List Char) : Int :=
  l.foldl (fun a c => 10 * a + ((c.toNat : Int) - 48)) 0

/-- Python `int(s)` for a string argument (ASCII decimal forms): strips
whitespace, accepts one optional sign, then a digit body; raises `ValueError`
otherwise. -/
def pyIntE (s : String) : Except String Int :=
  match pyStrip s.toList with
  | [] => Except.error "ValueError"
  | c :: cs =>
    if c = '-' then
      if intBodyOk cs then Except.ok (-(digitsVal (cs.filter Char.isDigit)))
      else Except.error "ValueError"
    else if c = '+' then
      if intBodyOk cs then Except.ok (digitsVal (cs.filter Char.isDigit))
      else Except.error "ValueError"
    else
      if intBodyOk (c :: cs) then Except.ok (digitsVal ((c :: cs).filter Char.isDigit))
      else Except.error "ValueError"

/-- Python `int(s)` with the exception caught into `Option`. -/
def pyInt (s : String) : Option Int := (pyIntE s).toOption

/-- Source lines 75-81: `extract_year_from_iso` returns `None` for a falsy
literal, else `int(date_literal[:4])` with any exception caught to `None`. -/
def extract_year_from_iso (date_literal : Option String) : Option Int :=
  match date_literal with
  | none => none
  | some s =>
    if s = "" then none
    else
      match pyIntE (String.mk (s.toList.take 4)) with
      | Except.ok n => some n
      | Except.error _ => none

/-- Python `str.split` on the single-character separator `sep`: every
occurrence splits, empty segments are kept. -/
def pySplitChar (sep : Char) : List Char → List (List Char)
  | [] => [[]]
  | c :: cs =>
    let r := pySplitChar sep cs
    if c = sep then [] :: r
    else
      match r with
      | h :: t => (c :: h) :: t
      | [] => [[c]]

/-- Python `genres_raw.split("|")` as a list of strings. -/
def pySplit (s : String) (sep : Char) : List String :=
  (pySplitChar sep s.toList).map String.mk

/-- Source line 107: `[g for g in (genres_raw.split("|") if genres_raw else []) if g]`. -/
def parseGenres (genres_raw : Option String) : List String :=
  (match genres_raw with
   | some g => if g ≠ "" then pySplit g '|' else []
   | none => []).filter (fun g => g ≠ "")

/-- Source lines 110-114: the death-year part of `regions`, appended in the
order `EU70` then `Mexico100`. -/
def deathRegions (eu_cutoff mx_cutoff : Int) (death_year : Option Int) : List String :=
  match death_year with
  | none => []
  | some d =>
    (if d ≤ eu_cutoff then ["EU70"] else []) ++
      (if d ≤ mx_cutoff then ["Mexico100"] else [])

/-- Source lines 115-120: the publication part of `regions`; `if pubYear:` is
the emptiness test, `int(pubYear)` may raise and the exception is passed. -/
def pubRegions (us_pub_cutoff : Int) (pubYear : Option String) : List String :=
  match pubYear with
  | none => []
  | some py =>
    if py ≠ "" then
      match pyIntE py with
      | Except.ok n => if n ≤ us_pub_cutoff then ["US_pub"] else []
      | Except.error _ => []
    else []

/-- Source lines 109-120: the full `regions` list for one record. -/
def computeRegions (eu_cutoff mx_cutoff us_pub_cutoff : Int)
    (death_year : Option Int) (pubYear : Option String) : List String :=
  deathRegions eu_cutoff mx_cutoff death_year ++ pubRegions us_pub_cutoff pubYear

/-- Python `sep.join(l)`. -/
def joinSep (sep : String) : List String → String
  | [] => ""
  | [x] => x
  | x :: xs => x ++ sep ++ joinSep sep xs

/-- Code-point lexicographic order on character lists: the order Python uses
to compare strings. -/
def charListLt : List Char → List Char → Bool
  | [], [] => false
  | [], _ :: _ => true
  | _ :: _, [] => false
  | c :: cs, d :: ds => c.toNat < d.toNat || (c = d && charListLt cs ds)

/-- Python string comparison `a < b`. -/
def pyStrLt (a b : String) : Bool := charListLt a.toList b.toList

/-- Insertion step of `pySorted`. -/
def orderedInsertPy (a : String) : List String → List String
  | [] => [a]
  | b :: l => if pyStrLt a b then a :: b :: l else b :: orderedInsertPy a l

/-- Python `sorted` on a list of strings (insertion sort under `pyStrLt`;
the script only sorts lists of pairwise-distinct tags, for which any
comparison sort agrees). -/
def pySorted : List String → List String
  | [] => []
  | b :: l => orderedInsertPy b (pySorted l)

/-- Source line 131: `",".join(sorted(set(regions))) if regions else ""`. -/
def normalizeRegions (regions : List String) : String :=
  if regions ≠ [] then joinSep "," (pySorted regions.dedup) else ""

/-- One row of the `data` list built by the loop in `main` (lines 122-132):
the canonical record of the spec, in the exact shape the code stores. -/
structure Row where
  title : Option String
  author : Option String
  author_qid : Option String
  author_death_year : Option Int
  publication_year : Option String
  language : Option String
  wikipedia_page : Option String
  genres : String
  regions : String
deriving DecidableEq, Repr

/-- Source lines 98-132: build one `data` row from a raw binding, given the
three cutoffs computed at the start of `main`. -/
def buildRow (eu_cutoff mx_cutoff us_pub_cutoff : Int) (r : RawRecord) : Row :=
  let death_year := extract_year_from_iso r.death
  let pubYear := r.pubYear
  let genres := parseGenres r.genres
  let regions := computeRegions eu_cutoff mx_cutoff us_pub_cutoff death_year pubYear
  { title := r.workLabel
    author := r.authorLabel
    author_qid := r.author
    author_death_year := death_year
    publication_year := pubYear
    language := r.langLabel
    wikipedia_page := r.wp
    genres := if genres ≠ [] then joinSep "," genres else ""
    regions := normalizeRegions regions }

/-- Exception-explicit transcription of the same loop body: the only fallible
operations are the two `int()` calls, and both sit under a `try/except` in the
source (inside `extract_year_from_iso`, and lines 116-120 with `pass`). -/
def buildRowE (eu_cutoff mx_cutoff us_pub_cutoff : Int) (r : RawRecord) :
    Except String Row := do
  let death_year := extract_year_from_iso r.death
  let pubYear := r.pubYear
  let genres := parseGenres r.genres
  let dr := deathRegions eu_cutoff mx_cutoff death_year
  let regions ←
    match pubYear with
    | some py =>
      if py ≠ "" then
        match pyIntE py with
        | Except.ok n => pure (if n ≤ us_pub_cutoff then dr ++ ["US_pub"] else dr)
        | Except.error _ => pure dr
      else pure dr
    | none => pure dr
  pure
    { title := r.workLabel
      author := r.authorLabel
      author_qid := r.author
      author_death_year := death_year
      publication_year := pubYear
      language := r.langLabel
      wikipedia_page := r.wp
      genres := if genres ≠ [] then joinSep "," genres else ""
      regions := normalizeRegions regions }

/-- Source line 89: `us_pub_cutoff = 1929 if Y >= 2025 else 1929`. -/
def us_pub_cutoff_of (Y : Int) : Int := if Y ≥ 2025 then 1929 else 1929

/-- Build one canonical row with the cutoffs of `main` for current year `Y`
(lines 86-89: `eu_cutoff = Y - 71`, `mx_cutoff = Y - 101`). -/
def mkRow (Y : Int) (r : RawRecord) : Row :=
  buildRow (Y - 71) (Y - 101) (us_pub_cutoff_of Y) r

/-- The jurisdiction tags of a canonical row, recomputed from its stored year
fields exactly as lines 109-120 compute them. -/
def tagsOfRow (Y : Int) (row : Row) : List String :=
  computeRegions (Y - 71) (Y - 101) (us_pub_cutoff_of Y)
    row.author_death_year row.publication_year

/-- The three jurisdiction tags in the order the classifier appends them. -/
def jurisdictionTags : List String := ["EU70", "Mexico100", "US_pub"]

/-- First matching jurisdiction of a row in the fixed order
EU70, Mexico100, US_pub. -/
def priorityTag (Y : Int) (row : Row) : Option String :=
  (jurisdictionTags.filter (fun t => t ∈ tagsOfRow Y row)).head?

/-- Boolean test that `pre` begins `l`. -/
def listStartsWith : List Char → List Char → Bool
  | [], _ => true
  | _ :: _, [] => false
  | c :: cs, d :: ds => c = d && listStartsWith cs ds

/-- Substring containment, the semantics of lines 136-138 where
`df["regions"].str.contains(tag, na=False)` is used with the literal,
regex-metacharacter-free tags of this script. -/
def strContains (s pat : String) : Bool :=
  s.toList.tails.any (fun t => listStartsWith pat.toList t)

/-- Source lines 136-138: one per-jurisdiction subset of the data frame. -/
def filterRegion (tag : String) (df : List Row) : List Row :=
  df.filter (fun row => strContains row.regions tag)

/-- Row of `df_all` (line 148): a data row plus the `region` column added by
`assign`; the fallback branch (line 153) writes rows without that column,
modelled as `region = none`. -/
structure AllRow where
  row : Row
  region : Option String
deriving DecidableEq, Repr

/-- Source line 148: `df_xx.assign(region=tag)`. -/
def assignRegion (tag : String) (df : List Row) : List AllRow :=
  df.map (fun r => ⟨r, some tag⟩)

/-- Source line 148: the concatenation of the three tagged subsets, in the
order EU70, Mexico100, US_pub. -/
def concatAll (df_eu df_mx df_us : List Row) : List AllRow :=
  assignRegion "EU70" df_eu ++ assignRegion "Mexico100" df_mx ++
    assignRegion "US_pub" df_us

/-- The deduplication key of line 149: the (title, author) pair. -/
def rowKey (r : Row) : Option String × Option String := (r.title, r.author)

/-- Source line 149: `drop_duplicates(subset=["title", "author"])`, keeping
the first row for each key; `seen` is the set of keys already emitted. -/
def dropDuplicatesByTitleAuthor :
    List AllRow → List (Option String × Option String) → List AllRow
  | [], _ => []
  | x :: xs, seen =>
    if rowKey x.row ∈ seen then dropDuplicatesByTitleAuthor xs seen
    else x :: dropDuplicatesByTitleAuthor xs (rowKey x.row :: seen)

/-- The four in-memory record sets the script exports, plus the unfiltered
master list `df`. -/
structure Outputs where
  df : List Row
  df_eu : List Row
  df_mx : List Row
  df_us : List Row
  df_all : List AllRow
deriving DecidableEq, Repr

/-- The core of `main` (lines 96-153) on the in-memory rows: normalize each
raw record, filter the three jurisdiction subsets, and build `ALL` either as
the deduplicated concatenation (line 147-150) or, when all three subsets are
empty, as the full unfiltered list (line 153). -/
def runMain (Y : Int) (raws : List RawRecord) : Outputs :=
  let df := raws.map (mkRow Y)
  let df_eu := filterRegion "EU70" df
  let df_mx := filterRegion "Mexico100" df
  let df_us := filterRegion "US_pub" df
  let df_all :=
    if df_eu ≠ [] ∨ df_mx ≠ [] ∨ df_us ≠ [] then
      dropDuplicatesByTitleAuthor (concatAll df_eu df_mx df_us) []
    else df.map (fun r => ⟨r, none⟩)
  ⟨df, df_eu, df_mx, df_us, df_all⟩

/-- The same pipeline with the pandas failure mode visible: when `data` is
empty, `pd.DataFrame(data)` has no columns and the very first subset filter
`df["regions"]` (line 136) raises `KeyError`, so no outputs are produced. -/
def runMainE (Y : Int) (raws : List RawRecord) : Except String Outputs :=
  if raws.map (mkRow Y) = [] then Except.error "KeyError: regions"
  else Except.ok (runMain Y raws)

/-- Sample raw record: publication year 1900, no death date; with current
year 2025 it is tagged US_pub only. -/
def sampleUS : RawRecord :=
  ⟨some "T", some "A", some "qA", none, some "1900", none, none, none⟩

/-- Sample raw record with the same (title, author) key as `sampleUS` but a
death date of 1800 and no publication year; tagged EU70 and Mexico100. -/
def sampleEU : RawRecord :=
  ⟨some "T", some "A", some "qB", some "1800-01-01", none, none, none, none⟩

/-- Sample raw record tagged with all three jurisdictions at current
year 2025. -/
def sampleAll : RawRecord :=
  ⟨some "W", some "B", some "qC", some "1800-01-01", some "1900", none, none,
    some "romance|adventure|"⟩

/-- Sample raw record with no death date and an unparsable publication-year
literal. -/
def sampleBadPub : RawRecord :=
  ⟨some "V", some "C", some "qD", none, some "abc", none, none, none⟩

/-- Sample raw record whose date and year literals all fail to parse. -/
def sampleBadDeath : RawRecord :=
  ⟨some "U", some "D", some "qE", some "abcd-01-01", some "xyz", none, none, none⟩

/-- Sample raw record with a repeated genre label. -/
def sampleDupGenres : RawRecord :=
  ⟨some "S", some "E", some "qF", none, none, none, none, some "romance|romance"⟩

/-- Sample raw record with every optional field absent; it carries no tags. -/
def sampleNone : RawRecord := ⟨none, none, none, none, none, none, none, none⟩

/-- Sample canonical row: death year 1950, no publication year. -/
def sampleRowP : Row :=
  ⟨some "P", some "PA", some "q1", some 1950, none, some "fr", some "wp1",
    "romance", "EU70"⟩

/-- Sample canonical row agreeing with `sampleRowP` on both year fields but
differing in every other field. -/
def sampleRowQ : Row :=
  ⟨some "Q", some "QA", some "q2", some 1950, none, some "en", some "wp2",
    "adventure", ""⟩

/-- The concatenation of line 148, built from the raw input: the three tagged
per-jurisdiction subsets in the order EU70, Mexico100, US_pub. -/
def concatOf (Y : Int) (raws : List RawRecord) : List AllRow :=
  concatAll (filterRegion "EU70" (raws.map (mkRow Y)))
    (filterRegion "Mexico100" (raws.map (mkRow Y)))
    (filterRegion "US_pub" (raws.map (mkRow Y)))

/-! ### Parsing lemmas -/

theorem pyInt_eq_some_iff {s : String} {n : Int} :
    pyInt s = some n ↔ pyIntE s = Except.ok n := by
  unfold pyInt
  cases h : pyIntE s <;> simp [Except.toOption]

theorem pyInt_empty : pyInt "" = none := rfl

/-! ### Membership in the classifier output -/

theorem mem_deathRegions {ec mc : Int} {dy : Option Int} {t : String} :
    t ∈ deathRegions ec mc dy ↔
      (t = "EU70" ∧ ∃ d, dy = some d ∧ d ≤ ec) ∨
        (t = "Mexico100" ∧ ∃ d, dy = some d ∧ d ≤ mc) := by
  cases dy with
  | none => simp [deathRegions]
  | some d =>
    by_cases h1 : d ≤ ec <;> by_cases h2 : d ≤ mc <;>
      simp [deathRegions, h1, h2]

theorem mem_pubRegions {uc : Int} {py : Option String} {t : String} :
    t ∈ pubRegions uc py ↔
      t = "US_pub" ∧ ∃ s, py = some s ∧ ∃ n, pyInt s = some n ∧ n ≤ uc := by
  cases py with
  | none => simp [pubRegions]
  | some s =>
    simp only [pubRegions]
    by_cases hs : s = ""
    · subst hs
      simp [pyInt_empty]
    · rw [if_pos hs]
      cases hp : pyIntE s with
      | ok n =>
        have hsome : pyInt s = some n := pyInt_eq_some_iff.mpr hp
        by_cases hn : n ≤ uc <;> simp [hn, hsome]
      | error e =>
        have hnone : pyInt s = none := by simp [pyInt, hp, Except.toOption]
        simp [hnone]

theorem mem_computeRegions {ec mc uc : Int} {dy : Option Int} {py : Option String}
    {t : String} :
    t ∈ computeRegions ec mc uc dy py ↔
      t ∈ deathRegions ec mc dy ∨ t ∈ pubRegions uc py := by
  simp [computeRegions]

theorem computeRegions_subset {ec mc uc : Int} {dy : Option Int} {py : Option String}
    {t : String} (h : t ∈ computeRegions ec mc uc dy py) : t ∈ jurisdictionTags := by
  rcases mem_computeRegions.mp h with h | h
  · rcases mem_deathRegions.mp h with ⟨rfl, -⟩ | ⟨rfl, -⟩ <;> simp [jurisdictionTags]
  · rcases mem_pubRegions.mp h with ⟨rfl, -⟩
    simp [jurisdictionTags]

/-! ### Shape of the classifier output -/

theorem deathRegions_cases (ec mc : Int) (dy : Option Int) :
    deathRegions ec mc dy = [] ∨ deathRegions ec mc dy = ["EU70"] ∨
      deathRegions ec mc dy = ["Mexico100"] ∨
        deathRegions ec mc dy = ["EU70", "Mexico100"] := by
  cases dy with
  | none => exact Or.inl rfl
  | some d =>
    by_cases h1 : d ≤ ec <;> by_cases h2 : d ≤ mc <;>
      simp [deathRegions, h1, h2]

theorem pubRegions_cases (uc : Int) (py : Option String) :
    pubRegions uc py = [] ∨ pubRegions uc py = ["US_pub"] := by
  cases py with
  | none => exact Or.inl rfl
  | some s =>
    simp only [pubRegions]
    by_cases hs : s = ""
    · simp [hs]
    · rw [if_pos hs]
      cases hp : pyIntE s with
      | ok n => by_cases hn : n ≤ uc <;> simp [hn]
      | error e => simp

/-- The comma-joined, sorted, deduplicated `regions` string contains one of
the three tags as a substring exactly when the tag is in the regions list. -/
theorem strContains_normalizeRegions (ec mc uc : Int) (dy : Option Int)
    (py : Option String) (t : String) (ht : t ∈ jurisdictionTags) :
    (strContains (normalizeRegions (computeRegions ec mc uc dy py)) t = true ↔
      t ∈ computeRegions ec mc uc dy py) := by
  have hd := deathRegions_cases ec mc dy
  have hp := pubRegions_cases uc py
  simp only [jurisdictionTags, List.mem_cons, List.not_mem_nil, or_false] at ht
  unfold computeRegions
  rcases ht with rfl | rfl | rfl <;>
    rcases hd with h1 | h1 | h1 | h1 <;> rcases hp with h2 | h2 <;>
      rw [h1, h2] <;> decide

/-! ### Pipeline lemmas -/

theorem regions_mkRow (Y : Int) (r : RawRecord) :
    (mkRow Y r).regions = normalizeRegions (tagsOfRow Y (mkRow Y r)) := rfl

theorem strContains_tagsOfRow {Y : Int} {r : RawRecord} {t : String}
    (ht : t ∈ jurisdictionTags) :
    (strContains (mkRow Y r).regions t = true ↔ t ∈ tagsOfRow Y (mkRow Y r)) := by
  rw [regions_mkRow]
  simp only [tagsOfRow]
  exact strContains_normalizeRegions _ _ _ _ _ _ ht

theorem mem_filterRegion {tag : String} {df : List Row} {row : Row} :
    row ∈ filterRegion tag df ↔ row ∈ df ∧ strContains row.regions tag = true := by
  simp [filterRegion]

theorem mem_filterRegion_iff_tag {Y : Int} {raws : List RawRecord} {row : Row}
    {t : String} (hrow : row ∈ raws.map (mkRow Y)) (ht : t ∈ jurisdictionTags) :
    row ∈ filterRegion t (raws.map (mkRow Y)) ↔ t ∈ tagsOfRow Y row := by
  rcases List.mem_map.mp hrow with ⟨raw, _, rfl⟩
  rw [mem_filterRegion]
  exact ⟨fun h => (strContains_tagsOfRow ht).mp h.2,
    fun h => ⟨hrow, (strContains_tagsOfRow ht).mpr h⟩⟩

theorem tagsOfRow_subset {Y : Int} {row : Row} {t : String}
    (h : t ∈ tagsOfRow Y row) : t ∈ jurisdictionTags :=
  computeRegions_subset (by simpa [tagsOfRow] using h)

/-! ### Deduplication lemmas -/

theorem mem_of_mem_dropDuplicates {l : List AllRow}
    {seen : List (Option String × Option String)} {x : AllRow}
    (h : x ∈ dropDuplicatesByTitleAuthor l seen) : x ∈ l := by
  induction l generalizing seen with
  | nil => simp [dropDuplicatesByTitleAuthor] at h
  | cons y ys ih =>
    simp only [dropDuplicatesByTitleAuthor] at h
    by_cases hk : rowKey y.row ∈ seen
    · rw [if_pos hk] at h
      exact List.mem_cons_of_mem _ (ih h)
    · rw [if_neg hk] at h
      rcases List.mem_cons.mp h with rfl | h'
      · exact List.mem_cons_self _ _
      · exact List.mem_cons_of_mem _ (ih h')

theorem filter_dropDuplicates (l : List AllRow)
    (seen : List (Option String × Option String))
    (k : Option String × Option String) :
    (dropDuplicatesByTitleAuthor l seen).filter (fun x => rowKey x.row = k) =
      if k ∈ seen then []
      else (l.filter (fun x => rowKey x.row = k)).take 1 := by
  induction l generalizing seen with
  | nil => simp [dropDuplicatesByTitleAuthor]
  | cons x xs ih =>
    simp only [dropDuplicatesByTitleAuthor]
    by_cases hk : rowKey x.row ∈ seen
    · rw [if_pos hk, ih]
      by_cases hks : k ∈ seen
      · simp [hks]
      · have hne : ¬rowKey x.row = k := fun he => hks (he ▸ hk)
        simp [hks, List.filter_cons, hne]
    · rw [if_neg hk, List.filter_cons]
      by_cases hxk : rowKey x.row = k
      · have hks : k ∉ seen := hxk ▸ hk
        have hmem : k ∈ rowKey x.row :: seen := by
          rw [hxk]; exact List.mem_cons_self _ _
        rw [ih]
        simp [hxk, hks, hmem, List.filter_cons]
      · have hiff : k ∈ rowKey x.row :: seen ↔ k ∈ seen := by
          simp only [List.mem_cons, or_iff_right_iff_imp]
          intro he
          exact absurd he.symm hxk
        rw [ih]
        by_cases hks : k ∈ seen <;>
          simp [hxk, hks, hiff, List.filter_cons]

theorem filter_assignRegion (tag : String) (df : List Row)
    (k : Option String × Option String) :
    (assignRegion tag df).filter (fun x => rowKey x.row = k) =
      assignRegion tag (df.filter (fun r => rowKey r = k)) := by
  induction df with
  | nil => rfl
  | cons r rs ih =>
    simp only [assignRegion, List.map_cons, List.filter_cons] at *
    by_cases h : rowKey r = k <;> simp [h, ih]

theorem filter_concatAll (df_eu df_mx df_us : List Row)
    (k : Option String × Option String) :
    (concatAll df_eu df_mx df_us).filter (fun x => rowKey x.row = k) =
      assignRegion "EU70" (df_eu.filter (fun r => rowKey r = k)) ++
        assignRegion "Mexico100" (df_mx.filter (fun r => rowKey r = k)) ++
          assignRegion "US_pub" (df_us.filter (fun r => rowKey r = k)) := by
  simp only [concatAll, List.filter_append, filter_assignRegion]

/-! ### Unfolding the main pipeline -/

theorem runMain_df (Y : Int) (raws : List RawRecord) :
    (runMain Y raws).df = raws.map (mkRow Y) := rfl

theorem runMain_df_eu (Y : Int) (raws : List RawRecord) :
    (runMain Y raws).df_eu = filterRegion "EU70" (raws.map (mkRow Y)) := rfl

theorem runMain_df_mx (Y : Int) (raws : List RawRecord) :
    (runMain Y raws).df_mx = filterRegion "Mexico100" (raws.map (mkRow Y)) := rfl

theorem runMain_df_us (Y : Int) (raws : List RawRecord) :
    (runMain Y raws).df_us = filterRegion "US_pub" (raws.map (mkRow Y)) := rfl

theorem runMain_df_all (Y : Int) (raws : List RawRecord) :
    (runMain Y raws).df_all =
      if filterRegion "EU70" (raws.map (mkRow Y)) ≠ [] ∨
          filterRegion "Mexico100" (raws.map (mkRow Y)) ≠ [] ∨
            filterRegion "US_pub" (raws.map (mkRow Y)) ≠ [] then
        dropDuplicatesByTitleAuthor
          (concatAll (filterRegion "EU70" (raws.map (mkRow Y)))
            (filterRegion "Mexico100" (raws.map (mkRow Y)))
            (filterRegion "US_pub" (raws.map (mkRow Y)))) []
      else (raws.map (mkRow Y)).map (fun r => ⟨r, none⟩) := rfl

theorem runMainE_eq_ok {Y : Int} {raws : List RawRecord} {out : Outputs}
    (h : runMainE Y raws = Except.ok out) :
    raws ≠ [] ∧ out = runMain Y raws := by
  unfold runMainE at h
  by_cases he : raws.map (mkRow Y) = []
  · rw [if_pos he] at h
    cases h
  · rw [if_neg he] at h
    refine ⟨fun hr => he (by simp [hr]), ?_⟩
    cases h
    rfl

/-- Some jurisdiction subset is nonempty exactly when some normalized record
carries at least one tag. -/
theorem subsets_nonempty_iff (Y : Int) (raws : List RawRecord) :
    (filterRegion "EU70" (raws.map (mkRow Y)) ≠ [] ∨
        filterRegion "Mexico100" (raws.map (mkRow Y)) ≠ [] ∨
          filterRegion "US_pub" (raws.map (mkRow Y)) ≠ []) ↔
      ∃ row ∈ raws.map (mkRow Y), tagsOfRow Y row ≠ [] := by
  constructor
  · rintro (h | h | h) <;>
    · rcases List.exists_mem_of_ne_nil _ h with ⟨row, hrow⟩
      rcases mem_filterRegion.mp hrow with ⟨hdf, hc⟩
      refine ⟨row, hdf, ?_⟩
      intro hnil
      have ht := (mem_filterRegion_iff_tag hdf (by simp [jurisdictionTags])).mp hrow
      rw [hnil] at ht
      exact List.not_mem_nil _ ht
  · rintro ⟨row, hdf, hne⟩
    rcases List.exists_mem_of_ne_nil _ hne with ⟨t, ht⟩
    have htags := tagsOfRow_subset ht
    have hmem := (mem_filterRegion_iff_tag hdf htags).mpr ht
    simp only [jurisdictionTags, List.mem_cons, List.not_mem_nil, or_false] at htags
    rcases htags with rfl | rfl | rfl
    · exact Or.inl (List.ne_nil_of_mem hmem)
    · exact Or.inr (Or.inl (List.ne_nil_of_mem hmem))
    · exact Or.inr (Or.inr (List.ne_nil_of_mem hmem))

/-- Shared helper: an unparsable publication-year literal never yields the
US_pub tag. -/
theorem us_pub_not_mem_of_unparsable {ec mc uc : Int} {dy : Option Int}
    {py : Option String} {s : String} (hs : py = some s)
    (hnone : pyInt s = none) : "US_pub" ∉ computeRegions ec mc uc dy py := by
  intro hmem
  rcases mem_computeRegions.mp hmem with h | h
  · rcases mem_deathRegions.mp h with ⟨h', -⟩ | ⟨h', -⟩ <;> simp at h'
  · rcases mem_pubRegions.mp h with ⟨-, s', hs', n, hn, -⟩
    rw [hs] at hs'
    cases hs'
    rw [hnone] at hn
    cases hn

/-! ### Claims -/

/-- C1: for every canonical record and current year Y, the classifier tags
EU70 exactly when the author death year is present and at most Y - 71, tags
Mexico100 exactly when it is present and at most Y - 101, and consequently
every Mexico100-tagged record is also EU70-tagged. -/
theorem claim_C1_death_year_tags (Y : Int) (row : Row) :
    ("EU70" ∈ tagsOfRow Y row ↔
        ∃ d, row.author_death_year = some d ∧ d ≤ Y - 71) ∧
      ("Mexico100" ∈ tagsOfRow Y row ↔
        ∃ d, row.author_death_year = some d ∧ d ≤ Y - 101) ∧
      ("Mexico100" ∈ tagsOfRow Y row → "EU70" ∈ tagsOfRow Y row) := by
  have heu : "EU70" ∈ tagsOfRow Y row ↔
      ∃ d, row.author_death_year = some d ∧ d ≤ Y - 71 := by
    simp [tagsOfRow, mem_computeRegions, mem_deathRegions, mem_pubRegions]
  have hmx : "Mexico100" ∈ tagsOfRow Y row ↔
      ∃ d, row.author_death_year = some d ∧ d ≤ Y - 101 := by
    simp [tagsOfRow, mem_computeRegions, mem_deathRegions, mem_pubRegions]
  refine ⟨heu, hmx, fun h => ?_⟩
  obtain ⟨d, hd, hle⟩ := hmx.mp h
  exact heu.mpr ⟨d, hd, by omega⟩

/-- C1 witness: the sample record with death year 1800 at current year 2025
is Mexico100-tagged, hence EU70-tagged. -/
theorem claim_C1_witness :
    "Mexico100" ∈ tagsOfRow 2025 (mkRow 2025 sampleEU) ∧
      "EU70" ∈ tagsOfRow 2025 (mkRow 2025 sampleEU) :=
  ⟨by decide, (claim_C1_death_year_tags 2025 (mkRow 2025 sampleEU)).2.2 (by decide)⟩

/-- C2: a canonical record is tagged US_pub exactly when its publication-year
literal is present, parses as an integer, and that integer is at most 1929;
and the 1929 cutoff is the same for every current year. -/
theorem claim_C2_us_publication_cutoff (Y : Int) (row : Row) :
    ("US_pub" ∈ tagsOfRow Y row ↔
        ∃ s, row.publication_year = some s ∧ ∃ n, pyInt s = some n ∧ n ≤ 1929) ∧
      us_pub_cutoff_of Y = 1929 := by
  have hc : us_pub_cutoff_of Y = 1929 := by
    unfold us_pub_cutoff_of
    split <;> rfl
  refine ⟨?_, hc⟩
  simp [tagsOfRow, mem_computeRegions, mem_deathRegions, mem_pubRegions, hc]

/-- C10: classification depends only on the two year fields; two canonical
records agreeing on author death year and on the raw publication-year literal
receive the same tag list whatever their other fields are. -/
theorem claim_C10_year_noninterference (Y : Int) (r1 r2 : Row)
    (hdy : r1.author_death_year = r2.author_death_year)
    (hpy : r1.publication_year = r2.publication_year) :
    tagsOfRow Y r1 = tagsOfRow Y r2 := by
  simp only [tagsOfRow, hdy, hpy]

/-- C10 witness: two sample rows differing in title, author, identifier,
language, source page and genres, but agreeing on the year fields, get equal
tag lists. -/
theorem claim_C10_witness :
    sampleRowP.author_death_year = sampleRowQ.author_death_year ∧
      sampleRowP.publication_year = sampleRowQ.publication_year ∧
      tagsOfRow 2025 sampleRowP = tagsOfRow 2025 sampleRowQ :=
  ⟨rfl, rfl, claim_C10_year_noninterference 2025 sampleRowP sampleRowQ rfl rfl⟩

/-- C6 counterexample: for the unparsable literal "abc" the canonical record
keeps the original literal in its publication-year field; the field is not
absent, contradicting the claim that unparsable literals yield an absent
field. -/
theorem claim_C6_counterexample :
    (mkRow 2025 sampleBadPub).publication_year = some "abc" ∧
      pyInt "abc" = none :=
  ⟨rfl, rfl⟩

/-- C6 amended: the publication-year field of the canonical record is the raw
literal unchanged (absent only when the raw field is absent); integer parsing
happens only transiently inside US_pub classification, where an unparsable
literal merely yields no US_pub tag. -/
theorem claim_C6_publication_year_passthrough (ec mc uc : Int) (r : RawRecord) :
    (buildRow ec mc uc r).publication_year = r.pubYear ∧
      (∀ s, r.pubYear = some s → pyInt s = none →
        "US_pub" ∉
          computeRegions ec mc uc (extract_year_from_iso r.death) r.pubYear) :=
  ⟨rfl, fun _ hs hnone => us_pub_not_mem_of_unparsable hs hnone⟩

/-- C6 witness: at the record with publication-year literal "abc", the field
is passed through and no US_pub tag is assigned. -/
theorem claim_C6_witness :
    (buildRow 1954 1924 1929 sampleBadPub).publication_year = sampleBadPub.pubYear ∧
      "US_pub" ∉
        computeRegions 1954 1924 1929
          (extract_year_from_iso sampleBadPub.death) sampleBadPub.pubYear :=
  ⟨(claim_C6_publication_year_passthrough 1954 1924 1929 sampleBadPub).1,
    (claim_C6_publication_year_passthrough 1954 1924 1929 sampleBadPub).2
      "abc" rfl rfl⟩

/-- C7 counterexample: the genre string with a repeated label parses to a list
that still contains the duplicate, contradicting the claim that duplicates
are removed. -/
theorem claim_C7_counterexample :
    parseGenres (some "romance|romance") = ["romance", "romance"] ∧
      ¬(parseGenres (some "romance|romance")).Nodup :=
  ⟨rfl, by decide⟩

/-- C7 amended: the genres field is the list of segments obtained by splitting
the raw string on the bar delimiter and discarding empty segments, in order
and with duplicates retained; an absent input yields the empty list, and
"romance|adventure|" yields exactly the two segments romance, adventure. -/
theorem claim_C7_genres_split :
    (∀ ec mc uc : Int, ∀ r : RawRecord,
        (buildRow ec mc uc r).genres =
          if parseGenres r.genres ≠ [] then joinSep "," (parseGenres r.genres)
          else "") ∧
      (∀ s : String,
        parseGenres (some s) = (pySplit s '|').filter (fun g => g ≠ "")) ∧
      parseGenres none = [] ∧
      parseGenres (some "romance|adventure|") = ["romance", "adventure"] := by
  refine ⟨fun ec mc uc r => rfl, ?_, rfl, rfl⟩
  intro s
  by_cases hs : s = ""
  · subst hs
    decide
  · simp [parseGenres, hs]

/-- C3: at the empty input sequence the script does not produce empty outputs;
building the empty data frame loses the regions column and the first subset
filter raises KeyError, while the record sets themselves would all be empty. -/
theorem claim_C3_empty_input_raises :
    runMainE 2025 [] = Except.error "KeyError: regions" ∧
      runMain 2025 [] = ⟨[], [], [], [], []⟩ :=
  ⟨rfl, rfl⟩

/-- C8: on every successful run, each per-jurisdiction subset contains exactly
the normalized records carrying that tag, so a multi-tagged record appears in
each corresponding subset. -/
theorem claim_C8_partition_exact (Y : Int) (raws : List RawRecord)
    (out : Outputs) (h : runMainE Y raws = Except.ok out) (row : Row) :
    (row ∈ out.df_eu ↔ row ∈ out.df ∧ "EU70" ∈ tagsOfRow Y row) ∧
      (row ∈ out.df_mx ↔ row ∈ out.df ∧ "Mexico100" ∈ tagsOfRow Y row) ∧
      (row ∈ out.df_us ↔ row ∈ out.df ∧ "US_pub" ∈ tagsOfRow Y row) := by
  obtain ⟨-, rfl⟩ := runMainE_eq_ok h
  rw [runMain_df_eu, runMain_df_mx, runMain_df_us, runMain_df]
  have key : ∀ t, t ∈ jurisdictionTags →
      (row ∈ filterRegion t (raws.map (mkRow Y)) ↔
        row ∈ raws.map (mkRow Y) ∧ t ∈ tagsOfRow Y row) := by
    intro t ht
    constructor
    · intro hm
      have hdf := (mem_filterRegion.mp hm).1
      exact ⟨hdf, (mem_filterRegion_iff_tag hdf ht).mp hm⟩
    · rintro ⟨hdf, htag⟩
      exact (mem_filterRegion_iff_tag hdf ht).mpr htag
  exact ⟨key "EU70" (by simp [jurisdictionTags]),
    key "Mexico100" (by simp [jurisdictionTags]),
    key "US_pub" (by simp [jurisdictionTags])⟩

/-- C8 witness: on the two-record sample input, the triple-tagged record is in
all three subsets and the untagged record is characterized out of each. -/
theorem claim_C8_witness :
    (mkRow 2025 sampleAll ∈ (runMain 2025 [sampleAll, sampleNone]).df_eu ↔
        mkRow 2025 sampleAll ∈ (runMain 2025 [sampleAll, sampleNone]).df ∧
          "EU70" ∈ tagsOfRow 2025 (mkRow 2025 sampleAll)) ∧
      (mkRow 2025 sampleAll ∈ (runMain 2025 [sampleAll, sampleNone]).df_mx ↔
        mkRow 2025 sampleAll ∈ (runMain 2025 [sampleAll, sampleNone]).df ∧
          "Mexico100" ∈ tagsOfRow 2025 (mkRow 2025 sampleAll)) ∧
      (mkRow 2025 sampleAll ∈ (runMain 2025 [sampleAll, sampleNone]).df_us ↔
        mkRow 2025 sampleAll ∈ (runMain 2025 [sampleAll, sampleNone]).df ∧
          "US_pub" ∈ tagsOfRow 2025 (mkRow 2025 sampleAll)) :=
  claim_C8_partition_exact 2025 [sampleAll, sampleNone]
    (runMain 2025 [sampleAll, sampleNone]) rfl (mkRow 2025 sampleAll)

/-- C9 counterexample: the publication-year parse failure is not replaced by
an absent field value: for the record whose literal "xyz" fails to parse, the
canonical record keeps the literal in its publication-year field, which is
therefore present, refuting the claim as stated. -/
theorem claim_C9_counterexample :
    pyIntE "xyz" = Except.error "ValueError" ∧
      (mkRow 2025 sampleBadDeath).publication_year = some "xyz" ∧
      (mkRow 2025 sampleBadDeath).publication_year ≠ none :=
  ⟨rfl, rfl, by decide⟩

/-- C9 amended: normalization and classification are total and never raise;
the exception-explicit transcription of the loop body returns the normally
computed row for every raw record; an unparsable or empty death literal is
replaced by an absent death-year field, while an unparsable publication
literal is kept in the field and merely produces no US_pub tag. -/
theorem claim_C9_total_normalization (ec mc uc : Int) (r : RawRecord) :
    buildRowE ec mc uc r = Except.ok (buildRow ec mc uc r) ∧
      (∀ s, r.death = some s → s ≠ "" →
        pyIntE (String.mk (s.toList.take 4)) = Except.error "ValueError" →
        (buildRow ec mc uc r).author_death_year = none) ∧
      (∀ s, r.pubYear = some s → pyIntE s = Except.error "ValueError" →
        "US_pub" ∉
          computeRegions ec mc uc (extract_year_from_iso r.death) r.pubYear) := by
  refine ⟨?_, ?_, ?_⟩
  · cases hpy : r.pubYear with
    | none =>
      simp [buildRowE, buildRow, hpy, computeRegions, pubRegions, pure,
        Except.pure, Bind.bind, Except.bind]
    | some py =>
      by_cases hpy0 : py = ""
      · subst hpy0
        simp [buildRowE, buildRow, hpy, computeRegions, pubRegions, pure,
          Except.pure, Bind.bind, Except.bind]
      · cases hp : pyIntE py with
        | ok n =>
          by_cases hn : n ≤ uc <;>
            simp [buildRowE, buildRow, hpy, hpy0, hp, hn, computeRegions,
              pubRegions, pure, Except.pure, Bind.bind, Except.bind]
        | error e =>
          simp [buildRowE, buildRow, hpy, hpy0, hp, computeRegions,
            pubRegions, pure, Except.pure, Bind.bind, Except.bind]
  · intro s hs hne herr
    show extract_year_from_iso r.death = none
    rw [hs]
    simp only [extract_year_from_iso]
    rw [if_neg hne, herr]
  · intro s hs herr
    exact us_pub_not_mem_of_unparsable hs (by simp [pyInt, herr, Except.toOption])

/-- C9 witness: at the record whose death and publication literals both fail
to parse, the exception-explicit run succeeds, the death-year field is
replaced by an absent value and no US_pub tag is produced. -/
theorem claim_C9_witness :
    buildRowE 1954 1924 1929 sampleBadDeath =
        Except.ok (buildRow 1954 1924 1929 sampleBadDeath) ∧
      (buildRow 1954 1924 1929 sampleBadDeath).author_death_year = none ∧
      "US_pub" ∉
        computeRegions 1954 1924 1929
          (extract_year_from_iso sampleBadDeath.death) sampleBadDeath.pubYear :=
  ⟨(claim_C9_total_normalization 1954 1924 1929 sampleBadDeath).1,
    (claim_C9_total_normalization 1954 1924 1929 sampleBadDeath).2.1
      "abcd-01-01" rfl (by decide) rfl,
    (claim_C9_total_normalization 1954 1924 1929 sampleBadDeath).2.2
      "xyz" rfl rfl⟩

/-- Helper: a member of the one-element leading part of a list is its head. -/
theorem eq_head_of_mem_take_one {α : Type _} {l : List α} {x : α}
    (h : x ∈ l.take 1) : l.head? = some x := by
  cases l with
  | nil => simp at h
  | cons y ys =>
    simp at h
    simp [h]

/-- Helper: membership in a tagged subset. -/
theorem mem_assignRegion {t : String} {df : List Row} {x : AllRow} :
    x ∈ assignRegion t df ↔ ∃ r ∈ df, x = AllRow.mk r (some t) := by
  simp [assignRegion, eq_comm]

/-- Helper: every row of the concatenation comes from the master list. -/
theorem row_mem_of_mem_concatOf {Y : Int} {raws : List RawRecord} {x : AllRow}
    (h : x ∈ concatOf Y raws) : x.row ∈ raws.map (mkRow Y) := by
  simp only [concatOf, concatAll, List.mem_append] at h
  rcases h with (h | h) | h <;>
  · rcases mem_assignRegion.mp h with ⟨r, hr, rfl⟩
    exact (mem_filterRegion.mp hr).1

/-- Helper: a tagged record appears in the concatenation under its tag. -/
theorem mem_concatOf_of_tag {Y : Int} {raws : List RawRecord} {row : Row}
    {t : String} (hdf : row ∈ raws.map (mkRow Y)) (ht : t ∈ tagsOfRow Y row) :
    AllRow.mk row (some t) ∈ concatOf Y raws := by
  have htj := tagsOfRow_subset ht
  have hf := (mem_filterRegion_iff_tag hdf htj).mpr ht
  simp only [jurisdictionTags, List.mem_cons, List.not_mem_nil, or_false] at htj
  simp only [concatOf, concatAll, List.mem_append]
  rcases htj with rfl | rfl | rfl
  · exact Or.inl (Or.inl (mem_assignRegion.mpr ⟨row, hf, rfl⟩))
  · exact Or.inl (Or.inr (mem_assignRegion.mpr ⟨row, hf, rfl⟩))
  · exact Or.inr (mem_assignRegion.mpr ⟨row, hf, rfl⟩)


/-- Helper: when the key-filtered jurisdiction subset is empty, a record in
the master list with that key does not carry that tag. -/
theorem not_tag_of_key_filter_nil {Y : Int} {raws : List RawRecord} {row : Row}
    {t : String} (ht : t ∈ jurisdictionTags)
    (hnil : (filterRegion t (raws.map (mkRow Y))).filter
      (fun r => rowKey r = rowKey row) = [])
    (hdf : row ∈ raws.map (mkRow Y)) : t ∉ tagsOfRow Y row := by
  intro htag
  have hf := (mem_filterRegion_iff_tag hdf ht).mpr htag
  have hm : row ∈ (filterRegion t (raws.map (mkRow Y))).filter
      (fun r => rowKey r = rowKey row) := List.mem_filter.mpr ⟨hf, by simp⟩
  rw [hnil] at hm
  exact List.not_mem_nil _ hm

/-- C5: on every successful run, whenever a record row appears in the ALL set
with some recorded region tag, that tag is the first of the record's matching
jurisdictions in the fixed priority order EU70, Mexico100, US_pub (stated for
the multi-tagged records of the claim, though the hypothesis is not needed). -/
theorem claim_C5_all_row_priority_tag (Y : Int) (raws : List RawRecord)
    (out : Outputs) (row : Row) (t : String)
    (hrun : runMainE Y raws = Except.ok out)
    (_hmulti : 1 < (tagsOfRow Y row).length)
    (hmem : AllRow.mk row (some t) ∈ out.df_all) :
    priorityTag Y row = some t := by
  obtain ⟨-, rfl⟩ := runMainE_eq_ok hrun
  rw [runMain_df_all] at hmem
  by_cases hcond : filterRegion "EU70" (raws.map (mkRow Y)) ≠ [] ∨
      filterRegion "Mexico100" (raws.map (mkRow Y)) ≠ [] ∨
        filterRegion "US_pub" (raws.map (mkRow Y)) ≠ []
  swap
  · rw [if_neg hcond] at hmem
    rcases List.mem_map.mp hmem with ⟨r0, -, heq⟩
    cases heq
  rw [if_pos hcond] at hmem
  have hx : AllRow.mk row (some t) ∈
      (dropDuplicatesByTitleAuthor
        (concatAll (filterRegion "EU70" (raws.map (mkRow Y)))
          (filterRegion "Mexico100" (raws.map (mkRow Y)))
          (filterRegion "US_pub" (raws.map (mkRow Y)))) []).filter
        (fun x => rowKey x.row = rowKey row) :=
    List.mem_filter.mpr ⟨hmem, by simp⟩
  rw [filter_dropDuplicates] at hx
  simp only [List.not_mem_nil, if_false] at hx
  have hhead := eq_head_of_mem_take_one hx
  rw [filter_concatAll] at hhead
  cases heu : (filterRegion "EU70" (raws.map (mkRow Y))).filter
      (fun r => rowKey r = rowKey row) with
  | cons r0 rs =>
    rw [heu] at hhead
    simp only [assignRegion, List.map_cons, List.cons_append, List.head?_cons,
      Option.some.injEq, AllRow.mk.injEq] at hhead
    obtain ⟨heq, ht⟩ := hhead
    cases ht
    subst heq
    have hr0 : r0 ∈ filterRegion "EU70" (raws.map (mkRow Y)) :=
      (List.mem_filter.mp (heu ▸ List.mem_cons_self r0 rs)).1
    have hdf := (mem_filterRegion.mp hr0).1
    have hEU : "EU70" ∈ tagsOfRow Y r0 :=
      (mem_filterRegion_iff_tag hdf (by simp [jurisdictionTags])).mp hr0
    simp [priorityTag, jurisdictionTags, List.filter_cons, hEU]
  | nil =>
    rw [heu] at hhead
    simp only [assignRegion, List.map_nil, List.nil_append] at hhead
    cases hmx : (filterRegion "Mexico100" (raws.map (mkRow Y))).filter
        (fun r => rowKey r = rowKey row) with
    | cons r0 rs =>
      rw [hmx] at hhead
      simp only [List.map_cons, List.cons_append, List.head?_cons,
        Option.some.injEq, AllRow.mk.injEq] at hhead
      obtain ⟨heq, ht⟩ := hhead
      cases ht
      subst heq
      have hr0 : r0 ∈ filterRegion "Mexico100" (raws.map (mkRow Y)) :=
        (List.mem_filter.mp (hmx ▸ List.mem_cons_self r0 rs)).1
      have hdf := (mem_filterRegion.mp hr0).1
      have hMX : "Mexico100" ∈ tagsOfRow Y r0 :=
        (mem_filterRegion_iff_tag hdf (by simp [jurisdictionTags])).mp hr0
      have hnoEU : "EU70" ∉ tagsOfRow Y r0 :=
        not_tag_of_key_filter_nil (by simp [jurisdictionTags]) heu hdf
      simp [priorityTag, jurisdictionTags, List.filter_cons, hMX, hnoEU]
    | nil =>
      rw [hmx] at hhead
      simp only [List.map_nil, List.nil_append] at hhead
      cases hus : (filterRegion "US_pub" (raws.map (mkRow Y))).filter
          (fun r => rowKey r = rowKey row) with
      | cons r0 rs =>
        rw [hus] at hhead
        simp only [List.map_cons, List.head?_cons, Option.some.injEq,
          AllRow.mk.injEq] at hhead
        obtain ⟨heq, ht⟩ := hhead
        cases ht
        subst heq
        have hr0 : r0 ∈ filterRegion "US_pub" (raws.map (mkRow Y)) :=
          (List.mem_filter.mp (hus ▸ List.mem_cons_self r0 rs)).1
        have hdf := (mem_filterRegion.mp hr0).1
        have hUS : "US_pub" ∈ tagsOfRow Y r0 :=
          (mem_filterRegion_iff_tag hdf (by simp [jurisdictionTags])).mp hr0
        have hnoEU : "EU70" ∉ tagsOfRow Y r0 :=
          not_tag_of_key_filter_nil (by simp [jurisdictionTags]) heu hdf
        have hnoMX : "Mexico100" ∉ tagsOfRow Y r0 :=
          not_tag_of_key_filter_nil (by simp [jurisdictionTags]) hmx hdf
        simp [priorityTag, jurisdictionTags, List.filter_cons, hUS, hnoEU, hnoMX]
      | nil =>
        rw [hus] at hhead
        cases hhead

/-- C5 witness: the triple-tagged sample record appears in ALL with region
EU70, its first matching jurisdiction in priority order. -/
theorem claim_C5_witness :
    1 < (tagsOfRow 2025 (mkRow 2025 sampleAll)).length ∧
      priorityTag 2025 (mkRow 2025 sampleAll) = some "EU70" :=
  ⟨by decide,
    claim_C5_all_row_priority_tag 2025 [sampleAll] (runMain 2025 [sampleAll])
      (mkRow 2025 sampleAll) "EU70" rfl (by decide) (by decide)⟩

/-- C4 counterexample: the input has the US-only record first and the
EU-tagged record second, sharing the key (T, A), both tagged and distinct;
the ALL set contains exactly the record that came second in input order,
because the EU70 subset precedes the US_pub subset in the concatenation. -/
theorem claim_C4_counterexample :
    rowKey (mkRow 2025 sampleUS) = rowKey (mkRow 2025 sampleEU) ∧
      mkRow 2025 sampleUS ≠ mkRow 2025 sampleEU ∧
      tagsOfRow 2025 (mkRow 2025 sampleUS) ≠ [] ∧
      tagsOfRow 2025 (mkRow 2025 sampleEU) ≠ [] ∧
      (runMainE 2025 [sampleUS, sampleEU]).toOption.map
          (fun o => o.df_all.map AllRow.row) = some [mkRow 2025 sampleEU] :=
  ⟨rfl, by decide, by decide, by decide, by decide⟩

/-- C4 amended: for two distinct tagged records sharing a (title, author) key,
with no other record of that key in the input, the ALL set contains exactly
one of the two, namely the first one in the concatenation of the
per-jurisdiction subsets taken in the order EU70, Mexico100, US_pub; this is
the input-order-first record only when both appear in the same first subset. -/
theorem claim_C4_amended_first_in_concat (Y : Int) (raws : List RawRecord)
    (out : Outputs) (l1 l2 l3 : List RawRecord) (ra rb : RawRecord)
    (hsplit : raws = l1 ++ ra :: (l2 ++ rb :: l3))
    (hrun : runMainE Y raws = Except.ok out)
    (hkey : rowKey (mkRow Y ra) = rowKey (mkRow Y rb))
    (hne : mkRow Y ra ≠ mkRow Y rb)
    (hta : tagsOfRow Y (mkRow Y ra) ≠ [])
    (htb : tagsOfRow Y (mkRow Y rb) ≠ [])
    (hothers : ∀ r ∈ l1 ++ l2 ++ l3,
      rowKey (mkRow Y r) ≠ rowKey (mkRow Y ra)) :
    (((concatOf Y raws).filter
          (fun x => rowKey x.row = rowKey (mkRow Y ra))).head?.map AllRow.row =
            some (mkRow Y ra) ∨
        ((concatOf Y raws).filter
          (fun x => rowKey x.row = rowKey (mkRow Y ra))).head?.map AllRow.row =
            some (mkRow Y rb)) ∧
      (mkRow Y ra ∈ out.df_all.map AllRow.row ↔
        ((concatOf Y raws).filter
          (fun x => rowKey x.row = rowKey (mkRow Y ra))).head?.map AllRow.row =
            some (mkRow Y ra)) ∧
      (mkRow Y rb ∈ out.df_all.map AllRow.row ↔
        ((concatOf Y raws).filter
          (fun x => rowKey x.row = rowKey (mkRow Y ra))).head?.map AllRow.row =
            some (mkRow Y rb)) := by
  obtain ⟨-, rfl⟩ := runMainE_eq_ok hrun
  have hadf : mkRow Y ra ∈ raws.map (mkRow Y) := by
    rw [hsplit]
    exact List.mem_map_of_mem _ (by simp)
  have hbdf : mkRow Y rb ∈ raws.map (mkRow Y) := by
    rw [hsplit]
    exact List.mem_map_of_mem _ (by simp)
  have hrowcases : ∀ row, row ∈ raws.map (mkRow Y) →
      rowKey row = rowKey (mkRow Y ra) →
        row = mkRow Y ra ∨ row = mkRow Y rb := by
    intro row hdf hk
    rcases List.mem_map.mp hdf with ⟨raw0, hraw0, rfl⟩
    rw [hsplit] at hraw0
    simp only [List.mem_append, List.mem_cons] at hraw0
    rcases hraw0 with h1 | rfl | h2 | rfl | h3
    · exact absurd hk (hothers raw0 (by simp [h1]))
    · exact Or.inl rfl
    · exact absurd hk (hothers raw0 (by simp [h2]))
    · exact Or.inr rfl
    · exact absurd hk (hothers raw0 (by simp [h3]))
  have hcond : filterRegion "EU70" (raws.map (mkRow Y)) ≠ [] ∨
      filterRegion "Mexico100" (raws.map (mkRow Y)) ≠ [] ∨
        filterRegion "US_pub" (raws.map (mkRow Y)) ≠ [] :=
    (subsets_nonempty_iff Y raws).mpr ⟨mkRow Y ra, hadf, hta⟩
  have hall : (runMain Y raws).df_all =
      dropDuplicatesByTitleAuthor (concatOf Y raws) [] := by
    rw [runMain_df_all, if_pos hcond]
    rfl
  have hfilter : ((runMain Y raws).df_all).filter
      (fun x => rowKey x.row = rowKey (mkRow Y ra)) =
        ((concatOf Y raws).filter
          (fun x => rowKey x.row = rowKey (mkRow Y ra))).take 1 := by
    rw [hall, filter_dropDuplicates]
    simp
  have hFne : (concatOf Y raws).filter
      (fun x => rowKey x.row = rowKey (mkRow Y ra)) ≠ [] := by
    rcases List.exists_mem_of_ne_nil _ hta with ⟨t, ht⟩
    have hc := mem_concatOf_of_tag hadf ht
    have hm : AllRow.mk (mkRow Y ra) (some t) ∈ (concatOf Y raws).filter
        (fun x => rowKey x.row = rowKey (mkRow Y ra)) :=
      List.mem_filter.mpr ⟨hc, by simp⟩
    exact List.ne_nil_of_mem hm
  obtain ⟨w, F', hF⟩ := List.exists_cons_of_ne_nil hFne
  have hheadF : ((concatOf Y raws).filter
      (fun x => rowKey x.row = rowKey (mkRow Y ra))).head? = some w := by
    rw [hF]
    rfl
  have hwF : w ∈ (concatOf Y raws).filter
      (fun x => rowKey x.row = rowKey (mkRow Y ra)) := by
    rw [hF]
    exact List.mem_cons_self _ _
  have hwconcat := (List.mem_filter.mp hwF).1
  have hwkey : rowKey w.row = rowKey (mkRow Y ra) := by
    have h2 := (List.mem_filter.mp hwF).2
    simpa using h2
  have hwdf := row_mem_of_mem_concatOf hwconcat
  have hwab := hrowcases w.row hwdf hwkey
  have hwALL : w ∈ (runMain Y raws).df_all := by
    have hw1 : w ∈ ((runMain Y raws).df_all).filter
        (fun x => rowKey x.row = rowKey (mkRow Y ra)) := by
      rw [hfilter, hF]
      simp
    exact (List.mem_filter.mp hw1).1
  have hwM : w.row ∈ (runMain Y raws).df_all.map AllRow.row :=
    List.mem_map_of_mem _ hwALL
  have huniq : ∀ x, x ∈ (runMain Y raws).df_all →
      rowKey x.row = rowKey (mkRow Y ra) → x = w := by
    intro x hx hk
    have hm : x ∈ ((runMain Y raws).df_all).filter
        (fun x => rowKey x.row = rowKey (mkRow Y ra)) :=
      List.mem_filter.mpr ⟨hx, by simp [hk]⟩
    rw [hfilter, hF] at hm
    simpa using hm
  have hMchar : ∀ c : Row, rowKey c = rowKey (mkRow Y ra) →
      (c ∈ (runMain Y raws).df_all.map AllRow.row ↔ w.row = c) := by
    intro c hck
    constructor
    · intro hcM
      rcases List.mem_map.mp hcM with ⟨x, hx, hxc⟩
      have hxk : rowKey x.row = rowKey (mkRow Y ra) := by rw [hxc, hck]
      have hxw := huniq x hx hxk
      rw [← hxw]
      exact hxc
    · intro hwc
      rw [← hwc]
      exact hwM
  refine ⟨?_, ?_, ?_⟩
  · rcases hwab with h | h
    · left
      rw [hheadF]
      simp [h]
    · right
      rw [hheadF]
      simp [h]
  · have hchar := hMchar (mkRow Y ra) rfl
    constructor
    · intro h
      rw [hheadF]
      simp [hchar.mp h]
    · intro h
      apply hchar.mpr
      rw [hheadF] at h
      simpa using h
  · have hchar := hMchar (mkRow Y rb) hkey.symm
    constructor
    · intro h
      rw [hheadF]
      simp [hchar.mp h]
    · intro h
      apply hchar.mpr
      rw [hheadF] at h
      simpa using h

/-- C4 witness: at the two-record sample input the winner is the head of the
concatenation (the EU-tagged second record), it is in ALL, and the US-only
first record is not. -/
theorem claim_C4_witness :
    (((concatOf 2025 [sampleUS, sampleEU]).filter
          (fun x => rowKey x.row = rowKey (mkRow 2025 sampleUS))).head?.map
            AllRow.row = some (mkRow 2025 sampleUS) ∨
        ((concatOf 2025 [sampleUS, sampleEU]).filter
          (fun x => rowKey x.row = rowKey (mkRow 2025 sampleUS))).head?.map
            AllRow.row = some (mkRow 2025 sampleEU)) ∧
      (mkRow 2025 sampleUS ∈
          (runMain 2025 [sampleUS, sampleEU]).df_all.map AllRow.row ↔
        ((concatOf 2025 [sampleUS, sampleEU]).filter
          (fun x => rowKey x.row = rowKey (mkRow 2025 sampleUS))).head?.map
            AllRow.row = some (mkRow 2025 sampleUS)) ∧
      (mkRow 2025 sampleEU ∈
          (runMain 2025 [sampleUS, sampleEU]).df_all.map AllRow.row ↔
        ((concatOf 2025 [sampleUS, sampleEU]).filter
          (fun x => rowKey x.row = rowKey (mkRow 2025 sampleUS))).head?.map
            AllRow.row = some (mkRow 2025 sampleEU)) :=
  claim_C4_amended_first_in_concat 2025 [sampleUS, sampleEU]
    (runMain 2025 [sampleUS, sampleEU]) [] [] [] sampleUS sampleEU rfl rfl
    (by decide) (by decide) (by decide) (by decide) (by simp)
